import Mathlib

/-!
Verification of the Safe Configuration Update Engine of cursor-rules-dynamic
(vscode-extension/src/templates/templateService.ts and
vscode-extension/src/schemas/cursorrules.schema.json).

The file system is modelled as a flat association list from path strings to
file contents.  The asynchronous VS Code file-system API is embedded as pure
functions returning `Option` (a `none` models a thrown exception), and the
nondeterministic environment (the user's answer to the confirmation prompt,
OS-level failures of individual file operations, the current time) is an
explicit `Env` record threaded through the operations.
-/

namespace CursorRules

/-- A flat file-system: an association list from absolute path to content. -/
abbrev Fs : Type := List (String × String)

/-- Look up the content stored at a path (first binding wins). -/
def fsLookup (fs : Fs) (p : String) : Option String :=
  match fs with
  | [] => none
  | (q, c) :: rest => if q = p then some c else fsLookup rest p

/-- Store content at a path, replacing an existing binding in place. -/
def fsSet (fs : Fs) (p : String) (c : String) : Fs :=
  match fs with
  | [] => [(p, c)]
  | (q, d) :: rest => if q = p then (q, c) :: rest else (q, d) :: fsSet rest p c

/-- Remove every binding for a path. -/
def fsRemove (fs : Fs) (p : String) : Fs :=
  match fs with
  | [] => []
  | (q, d) :: rest => if q = p then fsRemove rest p else (q, d) :: fsRemove rest p

/-- vscode.workspace.fs.copy: fails (throws, modelled as `none`) when the OS
refuses the operation, when the source is missing, or when the destination
exists and `overwrite` is false. -/
def fsCopy (fs : Fs) (src dst : String) (overwrite : Bool) (osFail : Bool) :
    Option Fs :=
  if osFail then none
  else
    match fsLookup fs src with
    | none => none
    | some c =>
      if (fsLookup fs dst).isSome && !overwrite then none
      else some (fsSet fs dst c)

/-- vscode.workspace.fs.delete: fails when the OS refuses or the path is
missing. -/
def fsDelete (fs : Fs) (p : String) (osFail : Bool) : Option Fs :=
  if osFail then none
  else
    match fsLookup fs p with
    | none => none
    | some _ => some (fsRemove fs p)

/-- A calendar timestamp, the argument of Date.prototype.toISOString. -/
structure DateTime where
  year : Nat
  month : Nat
  day : Nat
  hour : Nat
  minute : Nat
  second : Nat
  ms : Nat
deriving DecidableEq, Repr

/-- The decimal digit character for `n % 10`. -/
def digitChar (n : Nat) : Char := Char.ofNat (48 + n % 10)

/-- Fixed-width zero-padded decimal rendering, most significant digit first. -/
def padDigits : Nat → Nat → List Char
  | 0, _ => []
  | w + 1, n => padDigits w (n / 10) ++ [digitChar n]

/-- The character list of Date.prototype.toISOString:
YYYY-MM-DDTHH:mm:ss.sssZ. -/
def isoChars (d : DateTime) : List Char :=
  padDigits 4 d.year ++ ['-'] ++ padDigits 2 d.month ++ ['-'] ++ padDigits 2 d.day
    ++ ['T'] ++ padDigits 2 d.hour ++ [':'] ++ padDigits 2 d.minute ++ [':']
    ++ padDigits 2 d.second ++ ['.'] ++ padDigits 3 d.ms ++ ['Z']

/-- Date.prototype.toISOString as a string. -/
def toISOString (d : DateTime) : String := String.mk (isoChars d)

/-- One step of the regex replacement replace(/[:.]/g, dash). -/
def sanitizeChar (c : Char) : Char := if c = ':' ∨ c = '.' then '-' else c

/-- someString.replace(/[:.]/g, dash): every colon and dot becomes a dash. -/
def sanitizeTimestamp (s : String) : String := String.mk (s.data.map sanitizeChar)

/-- The timestamp token used in backup filenames
(templateService.ts line 126). -/
def backupTimestamp (d : DateTime) : String := sanitizeTimestamp (toISOString d)

/-- The well-known configuration filename. -/
def configFileName : String := ".cursorrules"

/-- The backup filename for a save at time `d`
(templateService.ts lines 126-130). -/
def backupFileName (d : DateTime) : String :=
  configFileName ++ "." ++ backupTimestamp d ++ ".backup"

/-- Split a character list at every slash (the semantics of
String.prototype.split on a slash separator): never empty. -/
def splitSlash : List Char → List (List Char)
  | [] => [[]]
  | c :: rest =>
    if c = '/' then [] :: splitSlash rest
    else
      match splitSlash rest with
      | [] => [[c]]
      | h :: t => (c :: h) :: t

/-- Re-join slash-separated segments. -/
def joinSlash : List (List Char) → List Char
  | [] => []
  | [x] => x
  | x :: y :: t => x ++ '/' :: joinSlash (y :: t)

/-- path.dirname for the slash-separated paths of the model. -/
def dirname (p : String) : String :=
  String.mk (joinSlash ((splitSlash p.data).dropLast))

/-- backupUri.path.split(slash).pop(): the last slash-separated segment. -/
def lastSegment (p : String) : String :=
  String.mk ((splitSlash p.data).getLastD [])

/-- The environment of one save call: the user's answer to the confirmation
prompt (`none` models dismissing it), the workspace root, and the OS-level
success of each file operation.  A failure of ensureBackupDirectory is
observationally the same as a failure of the copy into the backup directory
(both throw inside moveToBackupDirectory), so it is folded into
`moveCopyOsFail`. -/
structure Env where
  choice : Option String
  hasWorkspace : Bool
  workspaceRoot : String
  backupCopyOsFail : Bool
  moveCopyOsFail : Bool
  moveDeleteOsFail : Bool
  writeOsFail : Bool
  now : DateTime
deriving DecidableEq, Repr

/-- TemplateService.convertTemplateContent (templateService.ts lines 56-58):
the content normalizer, currently the identity transform. -/
def convertTemplateContent (content : String) : String := content

/-- The destination path used by moveToBackupDirectory for a sibling backup
file at `backupPath`. -/
def backupDirDest (env : Env) (backupPath : String) : String :=
  env.workspaceRoot ++ "/.cursorrules-backup/" ++ lastSegment backupPath

/-- TemplateService.moveToBackupDirectory (templateService.ts lines 71-95).
Every failure inside it is caught and only logged, so the function is total
on the file system: a failed step leaves the file system as it was at that
point. -/
def moveToBackupDirectory (env : Env) (fs : Fs) (backupPath : String) : Fs :=
  if !env.hasWorkspace then fs
  else if lastSegment backupPath = "" then fs
  else
    match fsCopy fs backupPath (backupDirDest env backupPath) false
        env.moveCopyOsFail with
    | none => fs
    | some fs1 =>
      match fsDelete fs1 backupPath env.moveDeleteOsFail with
      | none => fs1
      | some fs2 => fs2

/-- The observable result of one save call: the success message was shown
(`saved`), the call returned early after a declined confirmation
(`cancelled`), or an error was thrown to the caller (`error`). -/
inductive Outcome where
  | saved
  | cancelled
  | error
deriving DecidableEq, Repr

/-- The final workspace.fs.writeFile of the save (templateService.ts line
142); a thrown write error propagates to the outer catch and is re-thrown. -/
def finalWrite (env : Env) (fs : Fs) (content targetPath : String) :
    Fs × Outcome :=
  if env.writeOsFail then (fs, Outcome.error)
  else (fsSet fs targetPath content, Outcome.saved)

/-- The body of TemplateService.saveTemplateToWorkspace (templateService.ts
lines 97-151) once the target path is resolved.  The inner try block stats
the target; when it exists the user is asked, a declined confirmation
returns early, and otherwise the target is copied to a timestamped sibling
backup (overwrite allowed) which is then moved into the backup directory.
The inner catch swallows any exception of that block and continues with the
final write. -/
def saveResolved (env : Env) (fs : Fs) (content : String) (targetPath : String) :
    Fs × Outcome :=
  let convertedContent := convertTemplateContent content
  match fsLookup fs targetPath with
  | some _ =>
    if env.choice ≠ some "Replace" then (fs, Outcome.cancelled)
    else
      let backupPath := dirname targetPath ++ "/" ++ backupFileName env.now
      match fsCopy fs targetPath backupPath true env.backupCopyOsFail with
      | none =>
        -- the copy threw; the inner catch swallows it and creation proceeds
        finalWrite env fs convertedContent targetPath
      | some fs1 =>
        finalWrite env (moveToBackupDirectory env fs1 backupPath)
          convertedContent targetPath
  | none =>
    -- stat threw: file does not exist, continue with creation
    finalWrite env fs convertedContent targetPath

/-- TemplateService.saveTemplateToWorkspace: when no target URI is supplied
the well-known file in the first workspace folder is used, and a missing
workspace is an error. -/
def saveTemplateToWorkspace (env : Env) (fs : Fs) (content : String)
    (targetPath : Option String) : Fs × Outcome :=
  match targetPath with
  | none =>
    if !env.hasWorkspace then (fs, Outcome.error)
    else saveResolved env fs content (env.workspaceRoot ++ "/" ++ configFileName)
  | some t => saveResolved env fs content t

/-- A rule template as returned by the template repository
(templateService.ts lines 5-11). -/
structure RuleTemplate where
  id : String
  name : String
  category : String
  description : String
  content : String
deriving DecidableEq, Repr

/-- JavaScript String.prototype.split on a newline separator, at the level
of character lists: the result is the maximal run of segments between
newline characters and is never empty. -/
def splitLines : List Char → List (List Char)
  | [] => [[]]
  | c :: rest =>
    if c = '\n' then [] :: splitLines rest
    else
      match splitLines rest with
      | [] => [[c]]
      | h :: t => (c :: h) :: t

/-- JavaScript String.prototype.trim: strip whitespace from both ends. -/
def jsTrim (s : String) : String :=
  String.mk
    (((s.data.dropWhile Char.isWhitespace).reverse.dropWhile
        Char.isWhitespace).reverse)

/-- content.split(newline)[0].trim() (templateService.ts line 39). -/
def firstLineDescription (content : String) : String :=
  jsTrim (String.mk ((splitLines content.data).headD []))

/-- TemplateService.getTemplatesInCategory (templateService.ts lines 31-46).
`fileContent` is the result of reading the category's .cursorrules file
(`none` models a failed read, e.g. a missing directory or file); a failed
read is wrapped into an error naming the category. -/
def getTemplatesInCategory (category : String) (fileContent : Option String) :
    Except String (List RuleTemplate) :=
  match fileContent with
  | none =>
    Except.error ("Failed to read templates in category " ++ category)
  | some content =>
    Except.ok [{ id := category, name := category, category := category,
                 description := firstLineDescription content,
                 content := content }]

/-- A JSON value (cursorrules.schema.json is a draft-07 JSON Schema over
these). -/
inductive Json where
  | null
  | bool (b : Bool)
  | num (n : Int)
  | str (s : String)
  | arr (xs : List Json)
  | obj (fields : List (String × Json))

/-- Look up the value of a key in a JSON object's field list. -/
def lookupField (fields : List (String × Json)) (k : String) : Option Json :=
  match fields with
  | [] => none
  | (q, v) :: rest => if q = k then some v else lookupField rest k

/-- A property check of a draft-07 properties entry: the schema constrains a
property only when it is present. -/
def propOk (fields : List (String × Json)) (k : String) (pred : Json → Bool) :
    Bool :=
  match lookupField fields k with
  | none => true
  | some v => pred v

/-- type: string. -/
def isStr : Json → Bool
  | Json.str _ => true
  | _ => false

/-- type: boolean. -/
def isBool : Json → Bool
  | Json.bool _ => true
  | _ => false

/-- The level property of a rule: type string with
enum [error, warning, info, hint] (cursorrules.schema.json lines 41-45). -/
def isLevel : Json → Bool
  | Json.str s => s = "error" || s = "warning" || s = "info" || s = "hint"
  | _ => false

/-- definitions.rule.properties.fix (cursorrules.schema.json lines 56-69):
an object with required replace, and replace and message strings when
present. -/
def validFix : Json → Bool
  | Json.obj f =>
    (lookupField f "replace").isSome
      && propOk f "replace" isStr && propOk f "message" isStr
  | _ => false

/-- definitions.rule (cursorrules.schema.json lines 34-76): an object with
required id, level and description, each property conforming to its schema
when present. -/
def validRule : Json → Bool
  | Json.obj f =>
    (lookupField f "id").isSome && (lookupField f "level").isSome
      && (lookupField f "description").isSome
      && propOk f "id" isStr && propOk f "level" isLevel
      && propOk f "description" isStr && propOk f "pattern" isStr
      && propOk f "fix" validFix && propOk f "disabled" isBool
  | _ => false

/-- A prefix of one or more decimal digits followed by a literal dot;
returns the remainder after the dot. -/
def digitsThenDot (cs : List Char) : Option (List Char) :=
  let ds := cs.takeWhile Char.isDigit
  let rest := cs.dropWhile Char.isDigit
  if ds.isEmpty then none
  else
    match rest with
    | '.' :: r => some r
    | _ => none

/-- The version pattern of the schema (cursorrules.schema.json line 11). -/
def matchesVersionRegex (s : String) : Bool :=
  match digitsThenDot s.data with
  | none => false
  | some r1 =>
    match digitsThenDot r1 with
    | none => false
    | some r2 => !r2.isEmpty && r2.all Char.isDigit

/-- definitions.languageConfig (cursorrules.schema.json lines 22-33): an
object with a required rules array whose items conform to the rule schema. -/
def validLanguageConfig : Json → Bool
  | Json.obj f =>
    (lookupField f "rules").isSome
      && propOk f "rules" (fun v =>
        match v with
        | Json.arr xs => xs.all validRule
        | _ => false)
  | _ => false

/-- The top level of cursorrules.schema.json: type object, required version
and languages, version a string matching the semver pattern, languages an
object whose every value (additionalProperties) conforms to
languageConfig. -/
def validateDocument : Json → Bool
  | Json.obj f =>
    (lookupField f "version").isSome && (lookupField f "languages").isSome
      && propOk f "version" (fun v =>
        match v with
        | Json.str s => matchesVersionRegex s
        | _ => false)
      && propOk f "languages" (fun v =>
        match v with
        | Json.obj g => g.all (fun kv => validLanguageConfig kv.2)
        | _ => false)
  | _ => false

/-- Chronological order of timestamps: lexicographic on the calendar
fields. -/
def chronLT (a b : DateTime) : Prop :=
  a.year < b.year ∨ (a.year = b.year ∧
    (a.month < b.month ∨ (a.month = b.month ∧
      (a.day < b.day ∨ (a.day = b.day ∧
        (a.hour < b.hour ∨ (a.hour = b.hour ∧
          (a.minute < b.minute ∨ (a.minute = b.minute ∧
            (a.second < b.second ∨ (a.second = b.second ∧
              a.ms < b.ms)))))))))))

instance (a b : DateTime) : Decidable (chronLT a b) := by
  unfold chronLT
  infer_instance

/-- Every field fits its fixed-width decimal rendering in the ISO string. -/
def ValidDateTime (d : DateTime) : Prop :=
  d.year < 10000 ∧ d.month < 100 ∧ d.day < 100 ∧ d.hour < 100
    ∧ d.minute < 100 ∧ d.second < 100 ∧ d.ms < 1000

instance (d : DateTime) : Decidable (ValidDateTime d) := by
  unfold ValidDateTime
  infer_instance

/-- The description the spec prescribes for a template: the first non-empty
line of the raw content (stated from the spec's words, for comparison with
the implementation's first-line description). -/
def specFirstNonEmptyLine (content : String) : String :=
  ((((splitLines content.data).map (fun l => jsTrim (String.mk l)))).filter
      (fun l => l ≠ "")).headD ""

/-- The valid sample document of the spec's example scenario 4. -/
def sampleRuleDoc : Json :=
  Json.obj [("version", Json.str "1.0.0"),
    ("languages", Json.obj [("ts", Json.obj [("rules", Json.arr
      [Json.obj [("id", Json.str "r1"), ("level", Json.str "warning"),
                 ("description", Json.str "x")]])])])]

/-- The same document with level critical. -/
def sampleRuleDocBadLevel : Json :=
  Json.obj [("version", Json.str "1.0.0"),
    ("languages", Json.obj [("ts", Json.obj [("rules", Json.arr
      [Json.obj [("id", Json.str "r1"), ("level", Json.str "critical"),
                 ("description", Json.str "x")]])])])]

/-- An environment in which the user confirms the replacement and the
sibling backup copy fails at the OS level (e.g. the directory is
unwritable); everything else succeeds. -/
def envBackupCopyFails : Env :=
  { choice := some "Replace", hasWorkspace := true, workspaceRoot := "/ws",
    backupCopyOsFail := true, moveCopyOsFail := false,
    moveDeleteOsFail := false, writeOsFail := false,
    now := ⟨2024, 1, 2, 3, 4, 5, 6⟩ }

/-- An environment in which everything succeeds. -/
def envAllOk : Env :=
  { choice := some "Replace", hasWorkspace := true, workspaceRoot := "/ws",
    backupCopyOsFail := false, moveCopyOsFail := false,
    moveDeleteOsFail := false, writeOsFail := false,
    now := ⟨2024, 1, 2, 3, 4, 5, 6⟩ }

/-- An environment in which the copy into the backup directory fails and
everything else succeeds. -/
def envMoveCopyFails : Env :=
  { choice := some "Replace", hasWorkspace := true, workspaceRoot := "/ws",
    backupCopyOsFail := false, moveCopyOsFail := true,
    moveDeleteOsFail := false, writeOsFail := false,
    now := ⟨2024, 1, 2, 3, 4, 5, 6⟩ }

/-- A workspace holding one configuration document. -/
def fsOldDoc : Fs := [("/ws/.cursorrules", "old content")]

/-- A workspace holding a configuration document and a file already
occupying the sibling backup name that a save at `envAllOk.now` (or
`envMoveCopyFails.now`) computes. -/
def fsWithPriorBackup : Fs :=
  [("/ws/.cursorrules", "docA"),
   ("/ws/.cursorrules.2024-01-02T03-04-05-006Z.backup", "prior backup")]

theorem fsLookup_fsSet (fs : Fs) (p c q : String) :
    fsLookup (fsSet fs p c) q = if p = q then some c else fsLookup fs q := by
  induction fs with
  | nil => simp [fsSet, fsLookup]
  | cons a rest ih =>
    obtain ⟨r, d⟩ := a
    by_cases hrp : r = p
    · subst hrp
      by_cases hrq : r = q <;> simp [fsSet, fsLookup, hrq]
    · by_cases hrq : r = q
      · subst hrq
        have : ¬ p = r := fun h => hrp h.symm
        simp [fsSet, fsLookup, hrp, this]
      · simp [fsSet, fsLookup, hrp, hrq, ih]

theorem fsLookup_mem (fs : Fs) (p c : String) (h : fsLookup fs p = some c) :
    (p, c) ∈ fs := by
  induction fs with
  | nil => simp [fsLookup] at h
  | cons a rest ih =>
    obtain ⟨r, d⟩ := a
    by_cases hrp : r = p
    · subst hrp
      simp [fsLookup] at h
      subst h
      exact List.mem_cons_self _ _
    · simp [fsLookup, hrp] at h
      exact List.mem_cons_of_mem _ (ih h)

theorem splitLines_ne_nil (cs : List Char) : splitLines cs ≠ [] := by
  induction cs with
  | nil => simp [splitLines]
  | cons c rest ih =>
    by_cases hc : c = '\n'
    · simp [splitLines, hc]
    · cases hs : splitLines rest with
      | nil => exact absurd hs ih
      | cons h t => simp [splitLines, hc, hs]

theorem splitLines_headD (cs : List Char) :
    (splitLines cs).headD [] = cs.takeWhile (fun c => c ≠ '\n') := by
  induction cs with
  | nil => simp [splitLines]
  | cons c rest ih =>
    by_cases hc : c = '\n'
    · simp [splitLines, hc, List.takeWhile]
    · cases hs : splitLines rest with
      | nil => exact absurd hs (splitLines_ne_nil rest)
      | cons h t =>
        have hunf : splitLines (c :: rest) = (c :: h) :: t := by
          simp only [splitLines]
          rw [if_neg hc, hs]
        have hh : h = rest.takeWhile (fun c => c ≠ '\n') := by
          have hh' : (splitLines rest).headD [] = h := by rw [hs]; rfl
          rw [← hh', ih]
        rw [hunf]
        simp [List.takeWhile_cons, hc, hh]

theorem moveToBackupDirectory_copyFail (env : Env) (fs : Fs) (bp : String)
    (h : env.moveCopyOsFail = true) :
    moveToBackupDirectory env fs bp = fs := by
  unfold moveToBackupDirectory
  by_cases hw : env.hasWorkspace <;> simp [hw]
  by_cases hseg : lastSegment bp = "" <;> simp [hseg, fsCopy, h]

theorem padDigits_length (w n : Nat) : (padDigits w n).length = w := by
  induction w generalizing n with
  | zero => rfl
  | succ w ih => simp [padDigits, ih]

theorem digitChar_ofMod_lt (a b : Nat) (ha : a < 10) (hb : b < 10)
    (h : a < b) : Char.ofNat (48 + a) < Char.ofNat (48 + b) := by
  interval_cases a <;> interval_cases b <;> revert h <;> decide

theorem digitChar_lt (n m : Nat) (h : n % 10 < m % 10) :
    digitChar n < digitChar m :=
  digitChar_ofMod_lt _ _ (Nat.mod_lt n (by norm_num))
    (Nat.mod_lt m (by norm_num)) h

theorem sanitizeChar_digitChar (n : Nat) :
    sanitizeChar (digitChar n) = digitChar n := by
  unfold digitChar
  generalize hk : n % 10 = a
  have ha : a < 10 := hk ▸ Nat.mod_lt n (by norm_num)
  interval_cases a <;> decide

theorem sanitizeChar_dash : sanitizeChar '-' = '-' := by decide

theorem sanitizeChar_dayTimeSep : sanitizeChar 'T' = 'T' := by decide

theorem sanitizeChar_colon : sanitizeChar ':' = '-' := by decide

theorem sanitizeChar_dot : sanitizeChar '.' = '-' := by decide

theorem sanitizeChar_zulu : sanitizeChar 'Z' = 'Z' := by decide

theorem lexAppendIff (a : List Char) : ∀ (b c d : List Char),
    a.length = b.length →
    (List.Lex (· < ·) (a ++ c) (b ++ d) ↔
      List.Lex (· < ·) a b ∨ (a = b ∧ List.Lex (· < ·) c d)) := by
  induction a with
  | nil =>
    intro b c d h
    have hb : b = [] := by
      cases b with
      | nil => rfl
      | cons y ys => simp at h
    subst hb
    simp
  | cons x xs ih =>
    intro b c d h
    cases b with
    | nil => simp at h
    | cons y ys =>
      have hlen : xs.length = ys.length := by simpa using h
      rcases lt_trichotomy x y with hxy | hxy | hxy
      · constructor
        · intro _
          exact Or.inl (List.Lex.rel hxy)
        · intro _
          exact List.Lex.rel hxy
      · subst hxy
        simp only [List.cons_append, List.Lex.cons_iff, List.cons.injEq,
          true_and, ih ys c d hlen]
      · have hne : x ≠ y := ne_of_gt hxy
        have hnlt : ¬ x < y := not_lt_of_gt hxy
        constructor
        · intro hl
          exfalso
          rw [List.cons_append, List.cons_append] at hl
          cases hl with
          | cons htail => exact hne rfl
          | rel hr => exact hnlt hr
        · intro hl
          exfalso
          rcases hl with h1 | ⟨heq, _⟩
          · cases h1 with
            | cons htail => exact hne rfl
            | rel hr => exact hnlt hr
          · injection heq with hxy' _
            exact hne hxy'

theorem padDigits_lt (w : Nat) : ∀ n m : Nat, n < 10 ^ w → m < 10 ^ w →
    n < m → List.Lex (· < ·) (padDigits w n) (padDigits w m) := by
  induction w with
  | zero =>
    intro n m _ hm h
    simp only [pow_zero] at hm
    omega
  | succ w ih =>
    intro n m hn hm h
    have h10 : (0 : Nat) < 10 := by norm_num
    have hn' : n / 10 < 10 ^ w := by
      rw [Nat.div_lt_iff_lt_mul h10]
      calc n < 10 ^ (w + 1) := hn
        _ = 10 ^ w * 10 := by rw [pow_succ]
    have hm' : m / 10 < 10 ^ w := by
      rw [Nat.div_lt_iff_lt_mul h10]
      calc m < 10 ^ (w + 1) := hm
        _ = 10 ^ w * 10 := by rw [pow_succ]
    simp only [padDigits]
    refine (lexAppendIff _ _ _ _ ?_).mpr ?_
    · rw [padDigits_length, padDigits_length]
    · rcases Nat.lt_or_ge (n / 10) (m / 10) with hdiv | hdiv
      · exact Or.inl (ih _ _ hn' hm' hdiv)
      · have hdeq : n / 10 = m / 10 :=
          Nat.le_antisymm (Nat.div_le_div_right (Nat.le_of_lt h)) hdiv
        have hmod : n % 10 < m % 10 := by
          have hdm1 := Nat.div_add_mod n 10
          have hdm2 := Nat.div_add_mod m 10
          omega
        exact Or.inr ⟨by rw [hdeq], List.Lex.rel (digitChar_lt _ _ hmod)⟩

theorem map_sanitize_padDigits (w n : Nat) :
    (padDigits w n).map sanitizeChar = padDigits w n := by
  induction w generalizing n with
  | zero => rfl
  | succ w ih => simp [padDigits, ih, sanitizeChar_digitChar]

theorem sanitizeTimestamp_data (s : String) :
    (sanitizeTimestamp s).data = s.data.map sanitizeChar := rfl

theorem toISOString_data (d : DateTime) : (toISOString d).data = isoChars d :=
  rfl

theorem backupTimestamp_data (d : DateTime) :
    (backupTimestamp d).data =
      padDigits 4 d.year ++ '-' :: (padDigits 2 d.month ++ '-' ::
        (padDigits 2 d.day ++ 'T' :: (padDigits 2 d.hour ++ '-' ::
          (padDigits 2 d.minute ++ '-' :: (padDigits 2 d.second ++ '-' ::
            (padDigits 3 d.ms ++ ['Z'])))))) := by
  unfold backupTimestamp
  rw [sanitizeTimestamp_data, toISOString_data]
  unfold isoChars
  simp [List.map_append, map_sanitize_padDigits, sanitizeChar_dash,
    sanitizeChar_dayTimeSep, sanitizeChar_colon, sanitizeChar_dot,
    sanitizeChar_zulu, List.append_assoc]

theorem backupTimestamp_mono (d1 d2 : DateTime) (h1 : ValidDateTime d1)
    (h2 : ValidDateTime d2) (h : chronLT d1 d2) :
    backupTimestamp d1 < backupTimestamp d2 := by
  rw [String.lt_iff_toList_lt]
  show List.Lex (· < ·) (backupTimestamp d1).data (backupTimestamp d2).data
  rw [backupTimestamp_data, backupTimestamp_data]
  obtain ⟨hy1, hmo1, hda1, hh1, hmi1, hs1, hms1⟩ := h1
  obtain ⟨hy2, hmo2, hda2, hh2, hmi2, hs2, hms2⟩ := h2
  have hp4 : (10 : Nat) ^ 4 = 10000 := by norm_num
  have hp2 : (10 : Nat) ^ 2 = 100 := by norm_num
  have hp3 : (10 : Nat) ^ 3 = 1000 := by norm_num
  refine (lexAppendIff _ _ _ _ (by rw [padDigits_length, padDigits_length])).mpr
    ?_
  rcases h with hy | ⟨hyeq, h⟩
  · exact Or.inl (padDigits_lt 4 _ _ (hp4 ▸ hy1) (hp4 ▸ hy2) hy)
  refine Or.inr ⟨by rw [hyeq], List.Lex.cons ?_⟩
  refine (lexAppendIff _ _ _ _ (by rw [padDigits_length, padDigits_length])).mpr
    ?_
  rcases h with hmo | ⟨hmoeq, h⟩
  · exact Or.inl (padDigits_lt 2 _ _ (hp2 ▸ hmo1) (hp2 ▸ hmo2) hmo)
  refine Or.inr ⟨by rw [hmoeq], List.Lex.cons ?_⟩
  refine (lexAppendIff _ _ _ _ (by rw [padDigits_length, padDigits_length])).mpr
    ?_
  rcases h with hda | ⟨hdaeq, h⟩
  · exact Or.inl (padDigits_lt 2 _ _ (hp2 ▸ hda1) (hp2 ▸ hda2) hda)
  refine Or.inr ⟨by rw [hdaeq], List.Lex.cons ?_⟩
  refine (lexAppendIff _ _ _ _ (by rw [padDigits_length, padDigits_length])).mpr
    ?_
  rcases h with hh | ⟨hheq, h⟩
  · exact Or.inl (padDigits_lt 2 _ _ (hp2 ▸ hh1) (hp2 ▸ hh2) hh)
  refine Or.inr ⟨by rw [hheq], List.Lex.cons ?_⟩
  refine (lexAppendIff _ _ _ _ (by rw [padDigits_length, padDigits_length])).mpr
    ?_
  rcases h with hmi | ⟨hmieq, h⟩
  · exact Or.inl (padDigits_lt 2 _ _ (hp2 ▸ hmi1) (hp2 ▸ hmi2) hmi)
  refine Or.inr ⟨by rw [hmieq], List.Lex.cons ?_⟩
  refine (lexAppendIff _ _ _ _ (by rw [padDigits_length, padDigits_length])).mpr
    ?_
  rcases h with hs | ⟨hseq, h⟩
  · exact Or.inl (padDigits_lt 2 _ _ (hp2 ▸ hs1) (hp2 ▸ hs2) hs)
  refine Or.inr ⟨by rw [hseq], List.Lex.cons ?_⟩
  refine (lexAppendIff _ _ _ _ (by rw [padDigits_length, padDigits_length])).mpr
    ?_
  exact Or.inl (padDigits_lt 3 _ _ (hp3 ▸ hms1) (hp3 ▸ hms2) h)

/-- C9: the content normalization function convertTemplateContent is total
and idempotent, and in the baseline design it is the identity, so the
content written on save equals the template's raw content. -/
theorem normalizeIdentityIdempotent (s : String) :
    convertTemplateContent (convertTemplateContent s) = convertTemplateContent s
    ∧ convertTemplateContent s = s :=
  ⟨rfl, rfl⟩

/-- C4: when the target file exists and the user answers Cancel, the save
operation is a no-op: the whole file system (hence the target's content and
the backup directory's listing) is unchanged, no backup file is created,
and the outcome is cancelled rather than an error. -/
theorem cancelIsNoOp (env : Env) (fs : Fs) (content targetPath D : String)
    (hD : fsLookup fs targetPath = some D)
    (hc : env.choice = some "Cancel") :
    saveTemplateToWorkspace env fs content (some targetPath) =
      (fs, Outcome.cancelled) := by
  simp [saveTemplateToWorkspace, saveResolved, hD, hc]

theorem cancelIsNoOpWitness :
    fsLookup fsOldDoc "/ws/.cursorrules" = some "old content"
    ∧ saveTemplateToWorkspace
        { envAllOk with choice := some "Cancel" } fsOldDoc "new content"
        (some "/ws/.cursorrules") = (fsOldDoc, Outcome.cancelled) :=
  ⟨by decide,
    cancelIsNoOp { envAllOk with choice := some "Cancel" } fsOldDoc
      "new content" "/ws/.cursorrules" "old content" (by decide) rfl⟩

/-- C10: when the target file exists, every confirmation response other
than the exact choice Replace — including dismissing the prompt, modelled
as a `none` choice — cancels the save: the file system is unchanged (so no
backup is created and the target keeps its content) and the outcome is
cancelled. -/
theorem nonReplaceChoiceCancels (env : Env) (fs : Fs)
    (content targetPath D : String)
    (hD : fsLookup fs targetPath = some D)
    (hc : env.choice ≠ some "Replace") :
    saveTemplateToWorkspace env fs content (some targetPath) =
      (fs, Outcome.cancelled) := by
  simp [saveTemplateToWorkspace, saveResolved, hD, hc]

theorem nonReplaceChoiceCancelsWitness :
    fsLookup fsOldDoc "/ws/.cursorrules" = some "old content"
    ∧ ({ envAllOk with choice := none } : Env).choice ≠ some "Replace"
    ∧ saveTemplateToWorkspace { envAllOk with choice := none } fsOldDoc
        "new content" (some "/ws/.cursorrules") = (fsOldDoc, Outcome.cancelled) :=
  ⟨by decide, by decide,
    nonReplaceChoiceCancels { envAllOk with choice := none } fsOldDoc
      "new content" "/ws/.cursorrules" "old content" (by decide) (by decide)⟩

/-- C8: the backup filename is the config filename followed by a timestamp
token and the suffix .backup; the token is the current time's ISO-8601
rendering with every colon and dot replaced by a dash; and the tokens of
chronologically ordered timestamps are lexicographically ordered, so they
are lexically sortable in chronological order. -/
theorem backupFilenameSortable (d d' : DateTime) (hv : ValidDateTime d)
    (hv' : ValidDateTime d') (hlt : chronLT d d') :
    backupFileName d = configFileName ++ "." ++ backupTimestamp d ++ ".backup"
    ∧ backupTimestamp d = sanitizeTimestamp (toISOString d)
    ∧ backupTimestamp d < backupTimestamp d' :=
  ⟨rfl, rfl, backupTimestamp_mono d d' hv hv' hlt⟩

theorem backupFilenameSortableWitness :
    ValidDateTime ⟨2024, 1, 2, 3, 4, 5, 6⟩
    ∧ ValidDateTime ⟨2024, 1, 2, 3, 4, 5, 7⟩
    ∧ chronLT ⟨2024, 1, 2, 3, 4, 5, 6⟩ ⟨2024, 1, 2, 3, 4, 5, 7⟩
    ∧ backupTimestamp ⟨2024, 1, 2, 3, 4, 5, 6⟩ <
        backupTimestamp ⟨2024, 1, 2, 3, 4, 5, 7⟩ :=
  ⟨by decide, by decide, by decide,
    (backupFilenameSortable ⟨2024, 1, 2, 3, 4, 5, 6⟩ ⟨2024, 1, 2, 3, 4, 5, 7⟩
      (by decide) (by decide) (by decide)).2.2⟩

/-- C1 (code bug evidence): with an existing target document, a confirming
user and a backup copy that fails at the OS level, the save replaces the
target and reports success while no file anywhere holds the prior content:
the prior content is silently lost with no backup, the outcome the claim
says is unreachable. -/
theorem saveLosesContentAfterBackupCopyFailure :
    saveTemplateToWorkspace envBackupCopyFails fsOldDoc "new content"
        (some "/ws/.cursorrules")
      = ([("/ws/.cursorrules", "new content")], Outcome.saved)
    ∧ ¬ ∃ p, fsLookup (saveTemplateToWorkspace envBackupCopyFails fsOldDoc
        "new content" (some "/ws/.cursorrules")).1 p = some "old content" := by
  have heq : saveTemplateToWorkspace envBackupCopyFails fsOldDoc "new content"
      (some "/ws/.cursorrules")
      = ([("/ws/.cursorrules", "new content")], Outcome.saved) := by decide
  refine ⟨heq, ?_⟩
  rintro ⟨p, hp⟩
  rw [heq] at hp
  have hm := fsLookup_mem _ _ _ hp
  have hm2 := List.mem_singleton.mp hm
  have hbad : "old content" = "new content" := congrArg Prod.snd hm2
  exact absurd hbad (by decide)

/-- C2 (code bug evidence): after a terminal failure of the backup copy of
an existing target, the save does not abort — the final write is performed,
the target's content changes and the outcome is a success, not a
backup-failure abort. -/
theorem saveWritesDespiteBackupFailure :
    (saveTemplateToWorkspace envBackupCopyFails fsOldDoc "fresh content"
        (some "/ws/.cursorrules")).2 = Outcome.saved
    ∧ fsLookup (saveTemplateToWorkspace envBackupCopyFails fsOldDoc
        "fresh content" (some "/ws/.cursorrules")).1 "/ws/.cursorrules"
      = some "fresh content" :=
  ⟨by decide, by decide⟩

/-- C3 (counterexample): with a file already occupying the exact sibling
backup name, the backup copy does not fail — the save completes and no file
anywhere holds the prior backup's content, so the prior backup was
clobbered rather than preserved by a failing copy. -/
theorem backupCopyClobbersPriorBackup :
    saveTemplateToWorkspace envAllOk fsWithPriorBackup "docB"
        (some "/ws/.cursorrules")
      = ([("/ws/.cursorrules", "docB"),
          ("/ws/.cursorrules-backup/.cursorrules.2024-01-02T03-04-05-006Z.backup",
            "docA")], Outcome.saved)
    ∧ ¬ ∃ p, fsLookup (saveTemplateToWorkspace envAllOk fsWithPriorBackup
        "docB" (some "/ws/.cursorrules")).1 p = some "prior backup" := by
  have heq : saveTemplateToWorkspace envAllOk fsWithPriorBackup "docB"
      (some "/ws/.cursorrules")
      = ([("/ws/.cursorrules", "docB"),
          ("/ws/.cursorrules-backup/.cursorrules.2024-01-02T03-04-05-006Z.backup",
            "docA")], Outcome.saved) := by decide
  refine ⟨heq, ?_⟩
  rintro ⟨p, hp⟩
  rw [heq] at hp
  have hm := fsLookup_mem _ _ _ hp
  rcases List.mem_cons.mp hm with hm1 | hm1
  · have hbad : "prior backup" = "docB" := congrArg Prod.snd hm1
    exact absurd hbad (by decide)
  · have hm2 := List.mem_singleton.mp hm1
    have hbad : "prior backup" = "docA" := congrArg Prod.snd hm2
    exact absurd hbad (by decide)

/-- C3 (amended): the backup step copies the target's current bytes to the
sibling backup path with overwrite enabled: if a file already occupies that
exact sibling name, the copy succeeds and replaces it with the target's
bytes (here observed with the move into the backup directory failing, so
the clobbered sibling is still in place after the save). -/
theorem backupCopyOverwritesOccupiedSibling (env : Env) (fs : Fs)
    (t c D P : String)
    (ht : fsLookup fs t = some D)
    (_hb : fsLookup fs (dirname t ++ "/" ++ backupFileName env.now) = some P)
    (hne : dirname t ++ "/" ++ backupFileName env.now ≠ t)
    (hc : env.choice = some "Replace")
    (hcopy : env.backupCopyOsFail = false)
    (hmove : env.moveCopyOsFail = true)
    (hwrite : env.writeOsFail = false) :
    fsLookup (saveTemplateToWorkspace env fs c (some t)).1
        (dirname t ++ "/" ++ backupFileName env.now) = some D
    ∧ (saveTemplateToWorkspace env fs c (some t)).2 = Outcome.saved := by
  have hcp : fsCopy fs t (dirname t ++ "/" ++ backupFileName env.now) true
      env.backupCopyOsFail
      = some (fsSet fs (dirname t ++ "/" ++ backupFileName env.now) D) := by
    simp [fsCopy, hcopy, ht]
  have hmv := moveToBackupDirectory_copyFail env
    (fsSet fs (dirname t ++ "/" ++ backupFileName env.now) D)
    (dirname t ++ "/" ++ backupFileName env.now) hmove
  have htne : ¬ (t = dirname t ++ "/" ++ backupFileName env.now) :=
    fun h => hne h.symm
  constructor
  · simp [saveTemplateToWorkspace, saveResolved, ht, hc, hcp, hmv, finalWrite,
      hwrite, fsLookup_fsSet, htne]
  · simp [saveTemplateToWorkspace, saveResolved, ht, hc, hcp, hmv, finalWrite,
      hwrite]

theorem backupCopyOverwritesOccupiedSiblingWitness :
    fsLookup fsWithPriorBackup "/ws/.cursorrules" = some "docA"
    ∧ fsLookup fsWithPriorBackup
        (dirname "/ws/.cursorrules" ++ "/" ++ backupFileName envMoveCopyFails.now)
      = some "prior backup"
    ∧ fsLookup (saveTemplateToWorkspace envMoveCopyFails fsWithPriorBackup
        "docB" (some "/ws/.cursorrules")).1
        (dirname "/ws/.cursorrules" ++ "/" ++ backupFileName envMoveCopyFails.now)
      = some "docA" :=
  ⟨by decide, by decide,
    (backupCopyOverwritesOccupiedSibling envMoveCopyFails fsWithPriorBackup
      "/ws/.cursorrules" "docB" "docA" "prior backup" (by decide) (by decide)
      (by decide) (by decide) (by decide) (by decide) (by decide)).1⟩

/-- C5: when moving the sibling backup into the backup directory fails (no
workspace, a failed copy, an occupied destination, or a failed delete), the
backup file is still reachable at the sibling location afterwards — it is
never deleted or silently dropped — and the failure of the move never
changes the outcome of the overall save operation. -/
theorem moveFailureKeepsBackup (env : Env) (fs fs2 : Fs)
    (bp B c t : String)
    (hB : fsLookup fs bp = some B)
    (hne : backupDirDest env bp ≠ bp)
    (hfail : env.hasWorkspace = false ∨ env.moveCopyOsFail = true
      ∨ (fsLookup fs (backupDirDest env bp)).isSome = true
      ∨ env.moveDeleteOsFail = true) :
    fsLookup (moveToBackupDirectory env fs bp) bp = some B
    ∧ (saveResolved env fs2 c t).2 =
        (saveResolved
          { env with moveCopyOsFail := false, moveDeleteOsFail := false }
          fs2 c t).2 := by
  constructor
  · unfold moveToBackupDirectory
    cases hw : env.hasWorkspace with
    | false => simpa [hw] using hB
    | true =>
      simp only [hw, Bool.not_true, Bool.false_eq_true, if_false]
      by_cases hseg : lastSegment bp = ""
      · simpa [hseg] using hB
      · simp only [hseg, if_false]
        cases hcf : env.moveCopyOsFail with
        | true => simpa [fsCopy, hcf] using hB
        | false =>
          cases hocc : (fsLookup fs (backupDirDest env bp)).isSome with
          | true => simp [fsCopy, hB, hocc]
          | false =>
            have hd : env.moveDeleteOsFail = true := by
              rcases hfail with h | h | h | h
              · rw [hw] at h
                exact absurd h (by decide)
              · rw [hcf] at h
                exact absurd h (by decide)
              · rw [hocc] at h
                exact absurd h (by decide)
              · exact h
            have hcpy : fsCopy fs bp (backupDirDest env bp) false false
                = some (fsSet fs (backupDirDest env bp) B) := by
              simp [fsCopy, hB, hocc]
            simp only [hcpy]
            have hdel : fsDelete (fsSet fs (backupDirDest env bp) B) bp
                env.moveDeleteOsFail = none := by
              simp [fsDelete, hd]
            simp only [hdel]
            rw [fsLookup_fsSet]
            simp [hne, hB]
  · unfold saveResolved
    cases hls : fsLookup fs2 t with
    | none => simp [finalWrite]
    | some D =>
      by_cases hch : env.choice = some "Replace"
      · simp only [hch]
        cases hcp : fsCopy fs2 t (dirname t ++ "/" ++ backupFileName env.now)
            true env.backupCopyOsFail with
        | none => simp [hcp, finalWrite]
        | some fs1 =>
          simp only [hcp]
          cases hwf : env.writeOsFail <;> simp [finalWrite, hwf]
      · simp [hch]

theorem moveFailureKeepsBackupWitness :
    fsLookup [("/ws/.cursorrules.x.backup", "saved bytes")]
        "/ws/.cursorrules.x.backup" = some "saved bytes"
    ∧ backupDirDest envMoveCopyFails "/ws/.cursorrules.x.backup"
        ≠ "/ws/.cursorrules.x.backup"
    ∧ envMoveCopyFails.moveCopyOsFail = true
    ∧ fsLookup (moveToBackupDirectory envMoveCopyFails
        [("/ws/.cursorrules.x.backup", "saved bytes")]
        "/ws/.cursorrules.x.backup") "/ws/.cursorrules.x.backup"
      = some "saved bytes" :=
  ⟨by decide, by decide, by decide,
    (moveFailureKeepsBackup envMoveCopyFails
      [("/ws/.cursorrules.x.backup", "saved bytes")] [] "/ws/.cursorrules.x.backup"
      "saved bytes" "c" "/t" (by decide) (by decide)
      (Or.inr (Or.inl (by decide)))).1⟩

/-- C6 (counterexample): for a template file whose first line is empty, the
returned description is the empty string, not the first non-empty line of
the content as the claim states. -/
theorem templateDescriptionNotFirstNonEmptyLine :
    getTemplatesInCategory "frontend" (some "\nReact component guidelines")
      = Except.ok [{ id := "frontend", name := "frontend",
                     category := "frontend", description := "",
                     content := "\nReact component guidelines" }]
    ∧ specFirstNonEmptyLine "\nReact component guidelines"
        = "React component guidelines"
    ∧ ("" : String) ≠ "React component guidelines" := by
  refine ⟨rfl, by decide, by decide⟩

/-- C6 (amended): listing templates in a category returns exactly one
RuleTemplate whose id, name and category all equal the category name and
whose description is the first line of the raw content with surrounding
whitespace trimmed (empty when the first line is blank); a missing category
directory or template file fails with an error naming the category. -/
theorem templatesInCategoryFirstLine (category content : String) :
    getTemplatesInCategory category none
      = Except.error ("Failed to read templates in category " ++ category)
    ∧ getTemplatesInCategory category (some content)
      = Except.ok [{ id := category, name := category, category := category,
                     description := jsTrim (String.mk
                       (content.data.takeWhile (fun c => c ≠ '\n'))),
                     content := content }] := by
  refine ⟨rfl, ?_⟩
  simp only [getTemplatesInCategory, firstLineDescription]
  rw [splitLines_headD]

/-- C7: the schema rejects a rule object missing id, level or description,
and one whose level is a string outside the enumerated severity set; the
spec's sample document validates, and the same document with level critical
fails. -/
theorem schemaRejectsBadRules (f g : List (String × Json)) (s : String)
    (hmiss : lookupField f "id" = none ∨ lookupField f "level" = none
      ∨ lookupField f "description" = none)
    (hlev : lookupField g "level" = some (Json.str s))
    (hout : s ≠ "error" ∧ s ≠ "warning" ∧ s ≠ "info" ∧ s ≠ "hint") :
    validRule (Json.obj f) = false ∧ validRule (Json.obj g) = false
    ∧ validateDocument sampleRuleDoc = true
    ∧ validateDocument sampleRuleDocBadLevel = false := by
  obtain ⟨h1, h2, h3, h4⟩ := hout
  refine ⟨?_, ?_, by decide, by decide⟩
  · rcases hmiss with hm | hm | hm <;> simp [validRule, hm]
  · simp [validRule, propOk, hlev, isLevel, h1, h2, h3, h4]

theorem schemaRejectsBadRulesWitness :
    lookupField ([] : List (String × Json)) "id" = none
    ∧ lookupField [("level", Json.str "critical")] "level"
        = some (Json.str "critical")
    ∧ validRule (Json.obj []) = false
    ∧ validRule (Json.obj [("level", Json.str "critical")]) = false
    ∧ validateDocument sampleRuleDoc = true
    ∧ validateDocument sampleRuleDocBadLevel = false := by
  have h := schemaRejectsBadRules [] [("level", Json.str "critical")]
    "critical" (Or.inl rfl) rfl
    ⟨by decide, by decide, by decide, by decide⟩
  exact ⟨rfl, rfl, h.1, h.2.1, h.2.2.1, h.2.2.2⟩

end CursorRules
